import Mathlib

/-!
# Verification of the modo modular-synthesis engine (`modo.hh`)

Shallow embedding of the core of `modo.hh` in Lean 4.  The C++ `float`
arithmetic is idealised as exact rational arithmetic (`ℚ`); places where the
code performs a floating-point division by zero (producing a non-finite
value) are modelled by an explicit `poison` flag in the state.  C++ `int`
is modelled by `Int`, `unsigned char` fields by `Nat`.
-/

namespace Modo

/-- `DT` from `modo.hh` line 29: `constexpr float DT = 1.f / 44100.f;`,
idealised as the exact rational `1/44100`. -/
def DT : ℚ := 1 / 44100

/-- Truncation of a rational toward zero, the semantics of C++
float-to-int conversion for in-range values. -/
def ratTrunc (q : ℚ) : ℤ := if 0 ≤ q then ⌊q⌋ else ⌈q⌉

/-! ## Memoizing Node (modo.hh lines 147-163) and Node2 (lines 196-212)

`template <class T> class Node` stores a cached `value` and the time `t` it
was computed for.  `Node2` has the identical caching logic in its `get`
(lines 205-211); its `produce` is `inputs.get_and_process(t, *this)`.
The `count` field is ghost instrumentation counting invocations of
`produce` (the spec's "observable via a call counter in tests"); it is not
part of the C++ state and does not influence the computation. -/

structure NodeState (T : Type) where
  value : T
  t : Int
  count : Nat
deriving Repr, DecidableEq

/-- A freshly constructed `Node`: `Node(): value(), t(0) {}` (line 151).
`d` stands for the default-constructed value of `T`. -/
def NodeState.fresh {T : Type} (d : T) : NodeState T :=
  { value := d, t := 0, count := 0 }

/-- A freshly constructed `Node2` (lines 196-212): `Node2` declares
`int t;` and `value` with no member initializers and has no constructor of
its own (`using T::T;` only forwards arguments to the base `T`), so both
members are indeterminate after construction.  `v0` and `t0` stand for
whatever the uninitialized members happen to hold; only the ghost
invocation counter starts at 0. -/
def NodeState.fresh2 {T : Type} (v0 : T) (t0 : Int) : NodeState T :=
  { value := v0, t := t0, count := 0 }

/-- `Node::get` (lines 156-162): recompute via `produce` only when the
requested time differs from the cached one.  `produce` is passed the time
because the C++ `produce` reads `this->t`, which is set to `t` before the
call. -/
def NodeState.get {T : Type} (produce : Int → T) (s : NodeState T) (t : Int) :
    NodeState T × T :=
  if t ≠ s.t then
    let v := produce t
    ({ value := v, t := t, count := s.count + 1 }, v)
  else
    (s, s.value)

/-- `Node2::get` (lines 205-211): textually the same memoization logic as
`Node::get`, with `inputs.get_and_process(t, *this)` as the producer. -/
def NodeState.get2 {T : Type} (produce : Int → T) (s : NodeState T) (t : Int) :
    NodeState T × T :=
  if t ≠ s.t then
    let v := produce t
    ({ value := v, t := t, count := s.count + 1 }, v)
  else
    (s, s.value)

/-! ## Clip (modo.hh lines 287-292) -/

namespace Clip

/-- `Clip::process`: `input > .9f ? .9f : (input < -.9f ? -.9f : input)`. -/
def process (input : ℚ) : ℚ :=
  if input > 9/10 then 9/10 else if input < -(9/10) then -(9/10) else input

end Clip

/-! ## Freeverb feedback coefficient (modo.hh line 399) -/

namespace Freeverb

/-- The comb-filter feedback coefficient computed inside
`Freeverb::process`: `const float feedback = room_size * .28f + .7f;`. -/
def feedback (room_size : ℚ) : ℚ := room_size * (28/100) + 7/10

end Freeverb

/-! ## Saw (modo.hh lines 226-236) and Square (lines 238-248)

Each holds a single `float value = 0.f` phase accumulator; `process`
returns the new state and the output. -/

namespace Saw

/-- `Saw::process`: `value += frequency * (2.0 * DT); if (value > 1.f)
value -= 2.f; return value;` -/
def process (value frequency : ℚ) : ℚ × ℚ :=
  let v := value + frequency * (2 * DT)
  let v := if v > 1 then v - 2 else v
  (v, v)

/-- Folding `Saw::process` over a list of per-tick frequency inputs,
starting from phase `value`; returns the final phase and the list of
outputs, oldest first. -/
def run (value : ℚ) : List ℚ → ℚ × List ℚ
  | [] => (value, [])
  | f :: fs =>
    let (v, out) := process value f
    let (vfin, outs) := run v fs
    (vfin, out :: outs)

end Saw

namespace Square

/-- `Square::process`: `value += frequency * DT; if (value > 1.f)
value -= 1.f; return value > .5f ? 1.f : -1.f;` -/
def process (value frequency : ℚ) : ℚ × ℚ :=
  let v := value + frequency * DT
  let v := if v > 1 then v - 1 else v
  (v, if v > 1/2 then 1 else -1)

end Square

/-! ## Automation (modo.hh lines 409-474)

The script is a C string; the cursor is modelled as the remaining list of
characters, so `*cursor == '\0'` becomes `cursor = []`.  Float arithmetic
is idealised as `ℚ`; the one place the code can divide by zero
(`delta = (new_value - value) / t` with `t == 0`, producing a non-finite
float) is recorded in the ghost `poison` flag. -/

/-- The digit loop of `Automation::parse_number` (lines 422-425):
accumulates `number = number * 10 + (c - '0')`. -/
def parseDigits : List Char → ℚ → ℚ × List Char
  | c :: cs, n =>
    if '0' ≤ c ∧ c ≤ '9' then parseDigits cs (n * 10 + ((c.toNat - '0'.toNat : Nat) : ℚ))
    else (n, c :: cs)
  | [], n => (n, [])

/-- The fraction loop of `Automation::parse_number` (lines 426-434):
accumulates `number += (c - '0') * factor`, `factor /= 10`. -/
def parseFrac : List Char → ℚ → ℚ → ℚ × List Char
  | c :: cs, n, factor =>
    if '0' ≤ c ∧ c ≤ '9' then parseFrac cs (n + ((c.toNat - '0'.toNat : Nat) : ℚ) * factor) (factor / 10)
    else (n, c :: cs)
  | [], n, _ => (n, [])

/-- `Automation::parse_number` (lines 415-436): optional leading `-`,
integer digits, optional `.` fraction; returns `number * sign`. -/
def parseNumber (cs : List Char) : ℚ × List Char :=
  let (sign, cs1) : ℚ × List Char :=
    match cs with
    | '-' :: rest => (-1, rest)
    | _ => (1, cs)
  let (n, cs2) := parseDigits cs1 0
  match cs2 with
  | '.' :: rest =>
    let (n2, cs3) := parseFrac rest n (1/10)
    (n2 * sign, cs3)
  | _ => (n * sign, cs2)

/-- `Automation::skip_space` (lines 437-441). -/
def skipSpace : List Char → List Char
  | ' ' :: cs => skipSpace cs
  | cs => cs

/-- The mutable state of `Automation` (lines 410-414): remaining script,
current value, per-tick delta, remaining ticks.  `poison` is ghost: it is
set when the code performs the float division `(new_value - value) / 0`,
whose result (and every value derived from it) is non-finite. -/
structure AutoState where
  cursor : List Char
  value : ℚ
  delta : ℚ
  t : Int
  poison : Bool
deriving Repr, DecidableEq

/-- The `Automation` constructor (line 443): cursor at script start,
`value(0.f), delta(0.f), t(1)`. -/
def AutoState.init (script : List Char) : AutoState :=
  { cursor := script, value := 0, delta := 0, t := 1, poison := false }

/-- `Automation::process` (lines 444-467).  Returns the new state and the
returned value. -/
def AutoState.process (s : AutoState) : AutoState × ℚ :=
  let value := s.value + s.delta
  let t := s.t - 1
  if t = 0 then
    if s.cursor = [] then
      ({ s with value := value, delta := 0, t := t }, value)
    else
      let (newValue, c1) := parseNumber s.cursor
      match c1 with
      | '/' :: c2 =>
        let (dur, c3) := parseNumber c2
        let ticks := ratTrunc (dur / DT)
        ({ cursor := skipSpace c3, value := value,
           delta := (newValue - value) / (ticks : ℚ), t := ticks,
           poison := s.poison || decide (ticks = 0) }, value)
      | _ =>
        ({ s with cursor := skipSpace c1, value := newValue, delta := 0, t := 1 }, newValue)
  else
    ({ s with value := value, t := t }, value)

/-- `n` successive `process` calls, returning the final state. -/
def AutoState.stepN (s : AutoState) : Nat → AutoState
  | 0 => s
  | n + 1 => (AutoState.stepN s n).process.1

/-- The value returned by the `k`-th `process` call (`k ≥ 1`) on a fresh
`Automation` over `script`. -/
def AutoState.valueAt (script : List Char) (k : Nat) : ℚ :=
  ((AutoState.init script).stepN (k - 1)).process.2

/-! ## MIDIEvent (modo.hh lines 476-500) -/

/-- `MIDIEvent`: a 3-byte record; `uchar` fields modelled as `Nat`. -/
structure MIDIEvent where
  status : Nat
  data1 : Nat
  data2 : Nat
deriving Repr, DecidableEq

/-- The default constructor `MIDIEvent(): status(0), data1(0), data2(2)`
(line 480) — the "empty" event. -/
def MIDIEvent.empty : MIDIEvent := ⟨0, 0, 2⟩

/-- `MIDIEvent::create_note_off` (lines 482-484): status `0x80 | channel`. -/
def MIDIEvent.createNoteOff (note velocity channel : Nat) : MIDIEvent :=
  ⟨Nat.lor 0x80 channel, note, velocity⟩

/-- `MIDIEvent::create_note_on` (lines 485-487): status `0x90 | channel`. -/
def MIDIEvent.createNoteOn (note velocity channel : Nat) : MIDIEvent :=
  ⟨Nat.lor 0x90 channel, note, velocity⟩

/-- `MIDIEvent::operator bool` (lines 488-490): status high bit set. -/
def MIDIEvent.toBool (e : MIDIEvent) : Bool := Nat.land e.status 0x80 ≠ 0

/-- `MIDIEvent::is_note_off` (lines 491-493). -/
def MIDIEvent.isNoteOff (e : MIDIEvent) : Bool := Nat.land e.status 0xF0 == 0x80

/-- `MIDIEvent::is_note_on` (lines 494-496). -/
def MIDIEvent.isNoteOn (e : MIDIEvent) : Bool := Nat.land e.status 0xF0 == 0x90

/-- A MIDI clock-tick event `MIDIEvent(0xF8, 0, 0)` (line 549). -/
def MIDIEvent.clockTick : MIDIEvent := ⟨0xF8, 0, 0⟩

/-! ## NotePattern (modo.hh lines 597-630)

`int t` starts at 0, is only incremented or reset to 0, so it is modelled
as `Nat`.  C-string indexing `pattern[i]` past the final character yields
the NUL terminator, modelled by `List.getD` with default `Char.ofNat 0`. -/

/-- `pattern[i]` on a C string: the character at `i`, or NUL past the end. -/
def charAt (p : List Char) (i : Nat) : Char := p.getD i (Char.ofNat 0)

/-- The state of `NotePattern` (lines 598-600). -/
structure NPState where
  note : Nat
  pattern : List Char
  t : Nat
deriving Repr, DecidableEq

/-- `NotePattern::process` (lines 603-629). -/
def NPState.process (s : NPState) (clock : MIDIEvent) : NPState × MIDIEvent :=
  if clock.status = 0xF8 then
    if s.t % 6 = 0 then
      let c := charAt s.pattern (s.t / 6)
      let event :=
        if '0' ≤ c ∧ c ≤ '8' then
          MIDIEvent.createNoteOn s.note ((c.toNat - '0'.toNat) * 15) 0
        else MIDIEvent.empty
      ({ s with t := s.t + 1 }, event)
    else if s.t % 6 = 5 then
      let prev := charAt s.pattern (s.t / 6)
      let t1 := s.t + 1
      let t2 := if charAt s.pattern (t1 / 6) = Char.ofNat 0 then 0 else t1
      let next := charAt s.pattern (t2 / 6)
      let event :=
        if prev ≠ ' ' ∧ next ≠ '-' then MIDIEvent.createNoteOff s.note 127 0
        else MIDIEvent.empty
      ({ s with t := t2 }, event)
    else
      ({ s with t := s.t + 1 }, MIDIEvent.empty)
  else
    (s, MIDIEvent.empty)

/-- Feed `n` clock ticks (`0xF8` events) to a `NotePattern`, collecting the
emitted events oldest first. -/
def NPState.run (s : NPState) : Nat → NPState × List MIDIEvent
  | 0 => (s, [])
  | n + 1 =>
    let (s1, e) := s.process MIDIEvent.clockTick
    let (s2, es) := NPState.run s1 n
    (s2, e :: es)

/-! ## ADSR (modo.hh lines 651-697)

`std::pow(0.01f, DT * 1000.f / decay)` in the Decay branch is a
transcendental the embedding takes as a parameter `powf` (standing for
`std::pow`); none of the verified properties depend on it. -/

inductive ADSRPhase where
  | attack
  | decay
  | sustain
  | release
deriving Repr, DecidableEq

/-- The state of `ADSR` (lines 658-660): `state = State::Sustain`,
`value = 0.f`, `note = 0`. -/
structure ADSRState where
  state : ADSRPhase
  value : ℚ
  note : Nat
deriving Repr, DecidableEq

/-- A freshly constructed `ADSR`. -/
def ADSRState.init : ADSRState := ⟨ADSRPhase.sustain, 0, 0⟩

/-- `ADSR::process` (lines 662-696). -/
def ADSRState.process (powf : ℚ → ℚ → ℚ) (s : ADSRState) (event : MIDIEvent)
    (attack decay sustain release : ℚ) : ADSRState × ℚ :=
  let s :=
    if event.isNoteOn then
      let slide := s.note ≠ 0
      if slide then { s with note := event.data1 }
      else { s with note := event.data1, state := ADSRPhase.attack }
    else if event.isNoteOff && event.data1 == s.note then
      { s with note := 0, state := ADSRPhase.release }
    else s
  match s.state with
  | ADSRPhase.attack =>
    let v := s.value + 1000 / attack * DT
    if v ≥ 1 then ({ s with value := 1, state := ADSRPhase.decay }, 1)
    else ({ s with value := v }, v)
  | ADSRPhase.decay =>
    let v := sustain + (s.value - sustain) * powf (1/100) (DT * 1000 / decay)
    ({ s with value := v }, v)
  | ADSRPhase.sustain => (s, s.value)
  | ADSRPhase.release =>
    let v := s.value - 1000 / release * DT
    if v ≤ 0 then ({ s with value := 0, state := ADSRPhase.sustain }, 0)
    else ({ s with value := v }, v)

/-- `n` successive `process` calls with the empty event. -/
def ADSRState.stepsEmpty (powf : ℚ → ℚ → ℚ) (s : ADSRState)
    (attack decay sustain release : ℚ) : Nat → ADSRState
  | 0 => s
  | n + 1 =>
    ((ADSRState.stepsEmpty powf s attack decay sustain release n).process
      powf MIDIEvent.empty attack decay sustain release).1

/-! ## WAVOutput::run (modo.hh lines 709-730)

The data loop (lines 725-729): `for (int t = 1; t <= frames; ++t)` pulls
`input.get(t)` once and writes `int16_t(sample.left * 32767.f + .5f)` and
the same for the right channel — a float-to-int conversion, i.e.
truncation toward zero, with no clamping.  The graph output is modelled as
a function from the pulled time to the stereo sample; the model returns
the list of pulled times and the list of written channel pairs. -/

/-- The quantization the code applies to each channel:
`int16_t(x * 32767.f + .5f)` — truncation toward zero of `x·32767 + 1/2`. -/
def wavQuant (x : ℚ) : ℤ := ratTrunc (x * 32767 + 1/2)

/-- Modelled from the spec: the quantization §6 claims for the WAV writer,
"each sample quantized as `round(sample × 32767)` clamped to int16 range"
(absent from the code, which truncates and never clamps). -/
def wavQuantSpec (x : ℚ) : ℤ := max (-32768) (min 32767 (round (x * 32767)))

/-- The WAV data loop from time `t` with `n` frames remaining. -/
def wavLoop (input : Int → ℚ × ℚ) (t : Int) : Nat → List Int × List (ℤ × ℤ)
  | 0 => ([], [])
  | n + 1 =>
    let sample := input t
    let (ts, ds) := wavLoop input (t + 1) n
    (t :: ts, (wavQuant sample.1, wavQuant sample.2) :: ds)

/-- `WAVOutput::run`'s data loop over `frames` frames: the times pulled and
the channel pairs written, in order. -/
def wavRun (input : Int → ℚ × ℚ) (frames : Nat) : List Int × List (ℤ × ℤ) :=
  wavLoop input 1 frames

/-! ## Theorems -/

/-- C8: for every input `x`, `Clip.process x` lies in `[-0.9, 0.9]`, and
`Clip.process x = x` whenever `x ∈ [-0.9, 0.9]`. -/
theorem claim_C8_clip_bound_and_identity (x : ℚ) :
    (-(9/10) ≤ Clip.process x ∧ Clip.process x ≤ 9/10) ∧
    (-(9/10) ≤ x → x ≤ 9/10 → Clip.process x = x) := by
  unfold Clip.process
  split_ifs with h1 h2 <;>
    refine ⟨⟨by linarith, by linarith⟩, fun hl hr => ?_⟩ <;> linarith

/-- Witness for C8 at `x = 1/2`. -/
theorem claim_C8_witness :
    (-(9/10) ≤ Clip.process (1/2) ∧ Clip.process (1/2) ≤ 9/10) ∧
    Clip.process (1/2) = 1/2 :=
  ⟨(claim_C8_clip_bound_and_identity (1/2)).1,
   (claim_C8_clip_bound_and_identity (1/2)).2 (by norm_num) (by norm_num)⟩

/-- C9: for every `room_size ∈ [0, 1]`, the comb-filter feedback
coefficient computed inside `Freeverb::process` equals
`room_size · 0.28 + 0.7` and is strictly less than 1. -/
theorem claim_C9_freeverb_feedback_lt_one (room_size : ℚ)
    (h0 : 0 ≤ room_size) (h1 : room_size ≤ 1) :
    Freeverb.feedback room_size = room_size * (28/100) + 7/10 ∧
    Freeverb.feedback room_size < 1 := by
  unfold Freeverb.feedback
  exact ⟨rfl, by nlinarith⟩

/-- Witness for C9 at `room_size = 1/2`. -/
theorem claim_C9_witness :
    Freeverb.feedback (1/2) = (1/2) * (28/100) + 7/10 ∧
    Freeverb.feedback (1/2) < 1 :=
  claim_C9_freeverb_feedback_lt_one (1/2) (by norm_num) (by norm_num)

/-- One `Saw::process` step keeps the phase in `(-1, 1]` when the
frequency lies in `(0, 44100)`. -/
theorem saw_step_bound (v f : ℚ) (hv1 : -1 < v) (hv2 : v ≤ 1)
    (hf0 : 0 < f) (hf1 : f < 44100) :
    -1 < (Saw.process v f).1 ∧ (Saw.process v f).1 ≤ 1 := by
  unfold Saw.process DT
  dsimp only
  split_ifs with h <;> constructor <;> nlinarith

/-- The outputs of `Saw.run` are the successive phases; the invariant
`(-1, 1]` propagates along the run. -/
theorem saw_run_bound (v : ℚ) (fs : List ℚ) (hv1 : -1 < v) (hv2 : v ≤ 1)
    (hfs : ∀ f ∈ fs, 0 < f ∧ f < 44100) :
    (-1 < (Saw.run v fs).1 ∧ (Saw.run v fs).1 ≤ 1) ∧
    ∀ y ∈ (Saw.run v fs).2, -1 ≤ y ∧ y ≤ 1 := by
  induction fs generalizing v with
  | nil => exact ⟨⟨hv1, hv2⟩, by simp [Saw.run]⟩
  | cons f fs ih =>
    have hf := hfs f (List.mem_cons_self f fs)
    have hstep := saw_step_bound v f hv1 hv2 hf.1 hf.2
    have ihr := ih (Saw.process v f).1 hstep.1 hstep.2
      (fun g hg => hfs g (List.mem_cons_of_mem f hg))
    refine ⟨?_, ?_⟩
    · simpa [Saw.run] using ihr.1
    · intro y hy
      simp only [Saw.run] at hy
      rcases List.mem_cons.mp hy with h | h
      · subst h; exact ⟨le_of_lt hstep.1, hstep.2⟩
      · exact ihr.2 y h

/-- C7: starting from the initial phase 0, for every sequence of per-tick
frequency inputs each in the audio range `(0, 44100)`, every `Saw` output
lies in `[-1, 1]`; and every `Square` output, from any state and any
frequency, is exactly `1` or `-1`. -/
theorem claim_C7_saw_square_range
    (fs : List ℚ) (hfs : ∀ f ∈ fs, 0 < f ∧ f < 44100) :
    (∀ y ∈ (Saw.run 0 fs).2, -1 ≤ y ∧ y ≤ 1) ∧
    (∀ v f : ℚ, (Square.process v f).2 = 1 ∨ (Square.process v f).2 = -1) := by
  refine ⟨(saw_run_bound 0 fs (by norm_num) (by norm_num) hfs).2, ?_⟩
  intro v f
  unfold Square.process
  dsimp only
  split_ifs <;> simp

/-- Witness for C7: the run with the single frequency 440. -/
theorem claim_C7_witness :
    (∀ y ∈ (Saw.run 0 [440]).2, -1 ≤ y ∧ y ≤ 1) ∧
    (∀ v f : ℚ, (Square.process v f).2 = 1 ∨ (Square.process v f).2 = -1) :=
  claim_C7_saw_square_range [440] (by intro f hf; simp at hf; norm_num [hf])

/-- C1 (amended): consecutive `get` calls with the same `t` return the
identical value, the second call never recomputes, and `produce` is
invoked at most once for that `t` — exactly once when `t` differs from the
cached time stamp and never when it equals it; likewise for `Node2`. -/
theorem claim_C1_memoization_at_most_once (T : Type) (produce produce2 : Int → T)
    (s : NodeState T) (t : Int) :
    ((s.get produce t).1.get produce t = s.get produce t ∧
     (s.get produce t).1.count = s.count + (if t = s.t then 0 else 1)) ∧
    ((s.get2 produce2 t).1.get2 produce2 t = s.get2 produce2 t ∧
     (s.get2 produce2 t).1.count = s.count + (if t = s.t then 0 else 1)) := by
  unfold NodeState.get NodeState.get2
  by_cases h : t = s.t <;> simp [h]

/-- C1 counterexample: on a fresh node, two `get` calls at the fixed time
`t = 0` invoke `produce` zero times, not exactly once (the cached time
stamp starts at 0), for both `Node` and `Node2`. -/
theorem claim_C1_cex_zero_invocations :
    ((((NodeState.fresh (0 : Nat)).get (fun _ => 1) 0).1.get (fun _ => 1) 0).1.count = 0 ∧
     ¬ (((NodeState.fresh (0 : Nat)).get (fun _ => 1) 0).1.get (fun _ => 1) 0).1.count = 1) ∧
    ((((NodeState.fresh (0 : Nat)).get2 (fun _ => 1) 0).1.get2 (fun _ => 1) 0).1.count = 0 ∧
     ¬ (((NodeState.fresh (0 : Nat)).get2 (fun _ => 1) 0).1.get2 (fun _ => 1) 0).1.count = 1) := by
  decide

/-- C10 (amended): a fresh `Node` has cached time stamp 0, so a pull at
time 0 returns the default-constructed value without invoking `produce`,
while a first pull at any `t ≠ 0` invokes `produce` (count becomes 1) and
returns the computed value.  A fresh `Node2` leaves its cached stamp and
value uninitialized: the time-0 short-circuit (returning the indeterminate
cached value without invoking `process`) happens only when the
indeterminate stamp is 0; for any nonzero indeterminate stamp the first
pull at time 0 invokes `process` once and returns the computed value. -/
theorem claim_C10_node_vs_node2_initial_pull (T : Type) (d : T) (produce produce2 : Int → T) :
    ((NodeState.fresh d).get produce 0 = (NodeState.fresh d, d)) ∧
    (∀ t : Int, t ≠ 0 →
      (NodeState.fresh d).get produce t =
        ({ value := produce t, t := t, count := 1 }, produce t)) ∧
    (∀ (v0 : T) (t0 : Int), t0 = 0 →
      (NodeState.fresh2 v0 t0).get2 produce2 0 = (NodeState.fresh2 v0 t0, v0)) ∧
    (∀ (v0 : T) (t0 : Int), t0 ≠ 0 →
      (NodeState.fresh2 v0 t0).get2 produce2 0 =
        ({ value := produce2 0, t := 0, count := 1 }, produce2 0)) := by
  unfold NodeState.get NodeState.get2 NodeState.fresh NodeState.fresh2
  exact ⟨by simp, fun t ht => by simp [ht], fun v0 t0 ht0 => by simp [ht0],
         fun v0 t0 ht0 => by simp [Ne.symm ht0]⟩

/-- C10 counterexample: a possible freshly constructed `Node2` whose
indeterminate members happen to hold value 5 and time stamp 1 — a state
the source never rules out — has its first pull at time 0 invoke
`process` (invocation count 1, not 0) and return the computed value 7,
not a default-constructed 0: the claimed time-stamp-0 initialization does
not hold for `Node2`. -/
theorem claim_C10_cex_node2_uninitialized :
    (NodeState.fresh2 (5 : Nat) 1).get2 (fun _ => 7) 0 =
      ({ value := 7, t := 0, count := 1 }, 7) ∧
    ((NodeState.fresh2 (5 : Nat) 1).get2 (fun _ => 7) 0).1.count ≠ 0 ∧
    ((NodeState.fresh2 (5 : Nat) 1).get2 (fun _ => 7) 0).2 ≠ 0 := by
  decide

/-- Witness for C10 at `T = Nat`, `d = 0`: `Node` pulled at `t = 1`, and
`Node2` with indeterminate members `(5, 0)` and `(5, 1)` pulled at 0. -/
theorem claim_C10_witness :
    ((NodeState.fresh (0 : Nat)).get (fun _ => 7) 1 =
      ({ value := 7, t := 1, count := 1 }, 7)) ∧
    ((NodeState.fresh2 (5 : Nat) 0).get2 (fun _ => 7) 0 = (NodeState.fresh2 5 0, 5)) ∧
    ((NodeState.fresh2 (5 : Nat) 1).get2 (fun _ => 7) 0 =
      ({ value := 7, t := 0, count := 1 }, 7)) :=
  ⟨(claim_C10_node_vs_node2_initial_pull Nat 0 (fun _ => 7) (fun _ => 7)).2.1 1 (by decide),
   (claim_C10_node_vs_node2_initial_pull Nat 0 (fun _ => 7) (fun _ => 7)).2.2.1 5 0 (by decide),
   (claim_C10_node_vs_node2_initial_pull Nat 0 (fun _ => 7) (fun _ => 7)).2.2.2 5 1 (by decide)⟩

/-- C5: a `NotePattern` over pattern `"5--"`, fed 18 clock ticks, emits a
note-on of velocity `5·15 = 75` at the first tick, the empty event at
ticks 2-17, and a note-off at the 18th tick. -/
theorem claim_C5_pattern_5_sustain (note : Nat) :
    (NPState.run ⟨note, "5--".toList, 0⟩ 18).2 =
      MIDIEvent.createNoteOn note 75 0 ::
        (List.replicate 16 MIDIEvent.empty ++ [MIDIEvent.createNoteOff note 127 0]) := by
  simp [NPState.run, NPState.process, charAt, MIDIEvent.clockTick, MIDIEvent.empty,
        MIDIEvent.createNoteOn, MIDIEvent.createNoteOff]

/-- C3 (the code at the failing input): on the script `"1/0"`, the first
`process` call parses a ramp of 0 ticks and performs the float division
`delta = (new_value - value) / 0` — the non-finite result is recorded in
`poison` — and returns 0, not the ramp target 1; the next-token cursor is
exhausted, so the interpreter cannot continue to any next token. -/
theorem claim_C3_zero_duration_ramp_divzero :
    (AutoState.init "1/0".toList).process =
      ({ cursor := [], value := 0, delta := 0, t := 0, poison := true }, 0) ∧
    (AutoState.init "1/0".toList).process.2 ≠ 1 := by
  constructor
  · simp [AutoState.process, AutoState.init, parseNumber, parseDigits, parseFrac,
          skipSpace, ratTrunc, DT]
  · simp [AutoState.process, AutoState.init, parseNumber, parseDigits, parseFrac,
          skipSpace, ratTrunc, DT]

/-- Closed form of the WAV data loop: starting at time `t` with `n` frames
remaining, it pulls exactly the times `t, t+1, …, t+n-1` in order and
writes the code's quantization of each pulled sample. -/
theorem wavLoop_eq (input : Int → ℚ × ℚ) (n : Nat) : ∀ t : Int,
    wavLoop input t n =
      (List.map (fun i : Nat => t + (i : Int)) (List.range n),
       List.map (fun i : Nat =>
         (wavQuant (input (t + (i : Int))).1, wavQuant (input (t + (i : Int))).2))
         (List.range n)) := by
  induction n with
  | zero => intro t; rfl
  | succ n ih =>
    intro t
    rw [wavLoop, ih (t + 1)]
    dsimp only
    rw [List.range_succ_eq_map, List.map_cons, List.map_cons, List.map_map, List.map_map]
    simp only [Prod.mk.injEq]
    constructor
    · congr 1
      · norm_num
      · exact List.map_congr_left (fun i _ => by simp only [Function.comp]; push_cast; ring)
    · congr 1
      · norm_num
      · refine List.map_congr_left (fun i _ => ?_)
        have h : t + 1 + (i : Int) = t + ((i + 1 : Nat) : Int) := by push_cast; ring
        simp only [Function.comp]
        rw [h]

/-- C2 (amended): `WAVOutput::run` pulls the graph exactly at logical
times `1..n` inclusive (time 0 is never pulled) and writes each channel as
the float-to-int truncation of `sample × 32767 + 0.5` — which agrees with
`round(sample × 32767)` for nonnegative samples but truncates toward zero
for negative ones, and performs no clamping to the int16 range. -/
theorem claim_C2_wav_pull_times_and_quantization (input : Int → ℚ × ℚ) (n : Nat) :
    (wavRun input n).1 = List.map (fun i : Nat => (1 : Int) + (i : Int)) (List.range n) ∧
    (0 : Int) ∉ (wavRun input n).1 ∧
    (∀ t ∈ (wavRun input n).1, 1 ≤ t ∧ t ≤ (n : Int)) ∧
    (wavRun input n).2 = List.map (fun i : Nat =>
      (wavQuant (input (1 + (i : Int))).1, wavQuant (input (1 + (i : Int))).2))
      (List.range n) ∧
    (∀ x : ℚ, 0 ≤ x → wavQuant x = round (x * 32767)) := by
  have h := wavLoop_eq input n 1
  have h1 : (wavRun input n).1 = List.map (fun i : Nat => (1 : Int) + (i : Int)) (List.range n) := by
    rw [wavRun, h]
  refine ⟨h1, ?_, ?_, ?_, ?_⟩
  · rw [h1]
    simp only [List.mem_map, List.mem_range, not_exists]
    intro i _
    omega
  · intro t ht
    rw [h1] at ht
    simp only [List.mem_map, List.mem_range] at ht
    obtain ⟨i, hi, rfl⟩ := ht
    omega
  · rw [wavRun, h]
  · intro x hx
    unfold wavQuant ratTrunc
    rw [if_pos (by nlinarith), round_eq]

/-- C2 counterexample: for the constant input sample `-3/163835` (whose
scaled value is `-0.6`), the writer emits channel value 0, while the
claimed `round(sample × 32767)` clamped to int16 is `-1`. -/
theorem claim_C2_cex_negative_sample_truncated :
    (wavRun (fun _ => (-3/163835, -3/163835)) 1).2 = [((0 : ℤ), (0 : ℤ))] ∧
    wavQuantSpec (-3/163835) = -1 ∧ ((0 : ℤ) ≠ -1) := by
  refine ⟨?_, ?_, by norm_num⟩
  · rw [wavRun, wavLoop_eq]
    norm_num [wavQuant, ratTrunc]
  · unfold wavQuantSpec
    rw [round_eq]
    norm_num

/-- Witness for C2 with input constantly `1/2` and 2 frames: time 1 is
pulled and lies in `[1, 2]`, and the nonnegative-sample quantization
agrees with `round`. -/
theorem claim_C2_witness :
    (1 ≤ (1 : Int) ∧ (1 : Int) ≤ ((2 : Nat) : Int)) ∧
    wavQuant (1/2) = round ((1/2 : ℚ) * 32767) := by
  have h := claim_C2_wav_pull_times_and_quantization (fun _ => ((1:ℚ)/2, (1:ℚ)/2)) 2
  refine ⟨h.2.2.1 1 ?_, h.2.2.2.2 (1/2) (by norm_num)⟩
  rw [h.1]
  exact List.mem_map.mpr ⟨0, by simp⟩

/-- A `process` call on an end-of-script state whose countdown does not
reach 0 (or has already passed it): value advances by `delta`, `t`
decrements. -/
theorem auto_step_mid (v δ : ℚ) (m : Int) (p : Bool) (hm : m ≠ 1) :
    AutoState.process ⟨[], v, δ, m, p⟩ = (⟨[], v + δ, δ, m - 1, p⟩, v + δ) := by
  have h : ¬ (m - 1 = 0) := by omega
  simp [AutoState.process, h]

/-- A `process` call on an end-of-script state whose countdown reaches 0:
the final value is latched and `delta` zeroed. -/
theorem auto_step_last (v δ : ℚ) (p : Bool) :
    AutoState.process ⟨[], v, δ, 1, p⟩ = (⟨[], v + δ, 0, 0, p⟩, v + δ) := by
  simp [AutoState.process]

/-- `stepN` composes additively. -/
theorem auto_stepN_add (s : AutoState) (a : Nat) : ∀ b : Nat,
    s.stepN (a + b) = (s.stepN a).stepN b := by
  intro b
  induction b with
  | zero => rfl
  | succ b ih =>
    show (s.stepN (a + b)).process.1 = _
    rw [ih]
    rfl

/-- Ramp progression: `k` steps of an exhausted-script ramp state with
`k < m` remaining ticks advance the value linearly by `k·δ`. -/
theorem auto_stepN_mid (v δ : ℚ) (m : Int) (p : Bool) : ∀ k : Nat, (k : Int) < m →
    AutoState.stepN ⟨[], v, δ, m, p⟩ k = ⟨[], v + k * δ, δ, m - k, p⟩ := by
  intro k
  induction k with
  | zero => intro _; simp [AutoState.stepN]
  | succ k ih =>
    intro hk
    have hk' : (k : Int) < m := by push_cast at hk ⊢; omega
    show (AutoState.stepN _ k).process.1 = _
    rw [ih hk', auto_step_mid _ _ _ _ (by push_cast at hk; omega)]
    simp only [AutoState.mk.injEq, true_and, and_true]
    refine ⟨by push_cast; ring, by push_cast; omega⟩

/-- Ramp completion: exactly `m` steps land on the ramp target with
`delta` zeroed. -/
theorem auto_stepN_done (v δ : ℚ) (p : Bool) (m : Nat) (hm : 1 ≤ m) :
    AutoState.stepN ⟨[], v, δ, (m : Int), p⟩ m = ⟨[], v + m * δ, 0, 0, p⟩ := by
  obtain ⟨k, rfl⟩ : ∃ k, m = k + 1 := ⟨m - 1, by omega⟩
  show (AutoState.stepN _ k).process.1 = _
  rw [auto_stepN_mid _ _ _ _ k (by push_cast; omega)]
  rw [show ((k + 1 : Nat) : Int) - (k : Nat) = 1 by push_cast; ring]
  rw [auto_step_last]
  simp only [AutoState.mk.injEq, true_and, and_true]
  push_cast
  ring

/-- After the ramp has completed (countdown at or below 0, zero delta),
the value is frozen forever. -/
theorem auto_stepN_frozen (v : ℚ) (m : Int) (p : Bool) (hm : m ≤ 0) : ∀ k : Nat,
    AutoState.stepN ⟨[], v, 0, m, p⟩ k = ⟨[], v, 0, m - k, p⟩ := by
  intro k
  induction k with
  | zero => simp [AutoState.stepN]
  | succ k ih =>
    show (AutoState.stepN _ k).process.1 = _
    rw [ih, auto_step_mid _ _ _ _ (by omega)]
    simp only [AutoState.mk.injEq, true_and, and_true]
    refine ⟨by ring, by push_cast; omega⟩

/-- Unfolding `valueAt` without forcing the kernel to unroll `stepN` at a
numeral. -/
theorem valueAt_eq (script : List Char) (k : Nat) :
    AutoState.valueAt script k = ((AutoState.init script).stepN (k - 1)).process.2 := rfl

/-- State after the first `process` call on `"0 1/1"`: the instant token
`0` has been consumed. -/
theorem auto_0_1_1_s1 :
    (AutoState.init "0 1/1".toList).stepN 1 = ⟨['1', '/', '1'], 0, 0, 1, false⟩ := by
  show (AutoState.init "0 1/1".toList).process.1 = _
  simp [AutoState.process, AutoState.init, parseNumber, parseDigits, parseFrac,
        skipSpace, ratTrunc, DT]

/-- State after the second `process` call on `"0 1/1"`: the ramp `1/1` has
been parsed into 44100 ticks of delta `1/44100`. -/
theorem auto_0_1_1_s2 :
    (AutoState.init "0 1/1".toList).stepN 2 = ⟨[], 0, 1/44100, 44100, false⟩ := by
  show ((AutoState.init "0 1/1".toList).stepN 1).process.1 = _
  rw [auto_0_1_1_s1]
  simp [AutoState.process, parseNumber, parseDigits, parseFrac, skipSpace, ratTrunc, DT]

/-- The first `process` call on `"0 1/1"` returns 0. -/
theorem auto_0_1_1_tick1 : AutoState.valueAt "0 1/1".toList 1 = 0 := by
  show (AutoState.init "0 1/1".toList).process.2 = 0
  simp [AutoState.process, AutoState.init, parseNumber, parseDigits, parseFrac,
        skipSpace, ratTrunc, DT]

/-- The second `process` call on `"0 1/1"` also returns 0 (the ramp branch
returns the pre-parse value). -/
theorem auto_0_1_1_tick2 : AutoState.valueAt "0 1/1".toList 2 = 0 := by
  show ((AutoState.init "0 1/1".toList).stepN 1).process.2 = 0
  rw [auto_0_1_1_s1]
  simp [AutoState.process, parseNumber, parseDigits, parseFrac, skipSpace, ratTrunc, DT]

/-- C4 (amended): for the script `"0 1/1"` at 44100 Hz, `process` returns
0 at ticks 1 and 2, then `(t-2)/44100` at every tick `t` with
`2 ≤ t ≤ 44102` — reaching exactly 1 at tick 44102 — and holds 1 at every
tick thereafter. -/
theorem claim_C4_automation_ramp_profile :
    AutoState.valueAt "0 1/1".toList 1 = 0 ∧
    (∀ t : Nat, 2 ≤ t → t ≤ 44102 →
      AutoState.valueAt "0 1/1".toList t = ((t : ℚ) - 2) / 44100) ∧
    (∀ t : Nat, 44102 ≤ t → AutoState.valueAt "0 1/1".toList t = 1) := by
  have hmid : ∀ j : Nat, j ≤ 44098 →
      AutoState.valueAt "0 1/1".toList (j + 3) = ((j : ℚ) + 1) / 44100 := by
    intro j hj
    rw [valueAt_eq]
    have h1 : j + 3 - 1 = 2 + j := by omega
    rw [h1, auto_stepN_add, auto_0_1_1_s2,
        auto_stepN_mid _ _ _ _ j (by omega),
        auto_step_mid _ _ _ _ (by omega)]
    dsimp only
    ring
  have hlast : AutoState.valueAt "0 1/1".toList 44102 = 1 := by
    rw [valueAt_eq]
    have h1 : 44102 - 1 = 2 + 44099 := by norm_num
    rw [h1, auto_stepN_add, auto_0_1_1_s2,
        auto_stepN_mid _ _ _ _ 44099 (by norm_num)]
    norm_num
    rw [auto_step_last]
    norm_num
  have hdone : (AutoState.init "0 1/1".toList).stepN (2 + 44100) = ⟨[], 1, 0, 0, false⟩ := by
    rw [auto_stepN_add, auto_0_1_1_s2]
    have h := auto_stepN_done 0 (1/44100) false 44100 (by norm_num)
    rw [show ((44100 : Nat) : Int) = (44100 : Int) by norm_num] at h
    rw [h]
    norm_num [AutoState.mk.injEq]
  have hfrozen : ∀ r : Nat, AutoState.valueAt "0 1/1".toList (44103 + r) = 1 := by
    intro r
    rw [valueAt_eq]
    have h1 : 44103 + r - 1 = (2 + 44100) + r := by omega
    rw [h1, auto_stepN_add, hdone, auto_stepN_frozen _ _ _ (by norm_num) r,
        auto_step_mid _ _ _ _ (by omega)]
    norm_num
  refine ⟨auto_0_1_1_tick1, ?_, ?_⟩
  · intro t h2 h44102
    rcases Nat.lt_or_ge t 3 with h | h
    · have ht : t = 2 := by omega
      subst ht
      rw [auto_0_1_1_tick2]
      norm_num
    · rcases Nat.lt_or_ge t 44102 with h2' | h2'
      · obtain ⟨j, rfl⟩ : ∃ j, t = j + 3 := ⟨t - 3, by omega⟩
        rw [hmid j (by omega)]
        push_cast
        ring
      · have ht : t = 44102 := by omega
        subst ht
        rw [hlast]
        norm_num
  · intro t ht
    rcases Nat.lt_or_ge t 44103 with h | h
    · have ht2 : t = 44102 := by omega
      subst ht2
      exact hlast
    · obtain ⟨r, rfl⟩ : ∃ r, t = 44103 + r := ⟨t - 44103, by omega⟩
      exact hfrozen r

/-- C4 counterexample: at tick 2 the code returns 0, while the claimed
profile `value(t) = (t-1)/44100` demands `1/44100`. -/
theorem claim_C4_cex_tick2 :
    AutoState.valueAt "0 1/1".toList 2 = 0 ∧
    AutoState.valueAt "0 1/1".toList 2 ≠ ((2 : ℚ) - 1) / 44100 := by
  refine ⟨auto_0_1_1_tick2, ?_⟩
  rw [auto_0_1_1_tick2]
  norm_num

/-- Witness for C4 at ticks 3 and 44103. -/
theorem claim_C4_witness :
    AutoState.valueAt "0 1/1".toList 3 = ((3 : ℚ) - 2) / 44100 ∧
    AutoState.valueAt "0 1/1".toList 44103 = 1 :=
  ⟨claim_C4_automation_ramp_profile.2.1 3 (by norm_num) (by norm_num),
   claim_C4_automation_ramp_profile.2.2 44103 (by norm_num)⟩

/-- `MIDIEvent::create_note_on` on channel 0 is recognised as a note-on. -/
@[simp] theorem createNoteOn_isNoteOn (k v : Nat) :
    (MIDIEvent.createNoteOn k v 0).isNoteOn = true := by
  simp only [MIDIEvent.isNoteOn, MIDIEvent.createNoteOn]
  decide

/-- A note-on event is not a note-off. -/
@[simp] theorem createNoteOn_isNoteOff (k v : Nat) :
    (MIDIEvent.createNoteOn k v 0).isNoteOff = false := by
  simp only [MIDIEvent.isNoteOff, MIDIEvent.createNoteOn]
  decide

/-- The note number of a created note-on event. -/
@[simp] theorem createNoteOn_data1 (k v : Nat) :
    (MIDIEvent.createNoteOn k v 0).data1 = k := rfl

/-- The empty event is not a note-on. -/
@[simp] theorem empty_isNoteOn : MIDIEvent.empty.isNoteOn = false := by decide

/-- The empty event is not a note-off. -/
@[simp] theorem empty_isNoteOff : MIDIEvent.empty.isNoteOff = false := by decide

/-- C6: from the initial state (Sustain, value 0, no note), empty events
return 0 indefinitely with no state change; a note-on from rest enters
Attack (completing to Decay within the call only if the very first
increment already reaches 1); in Attack with `attack > 0` the value
strictly increases each tick, is capped at 1, and the phase becomes Decay
exactly when the value reaches exactly 1; and a note-on while a note is
already held never resets the phase to Attack. -/
theorem claim_C6_adsr_envelope (powf : ℚ → ℚ → ℚ) (atk dec sus rel : ℚ) :
    (∀ n : Nat, ADSRState.stepsEmpty powf ADSRState.init atk dec sus rel n = ADSRState.init) ∧
    (ADSRState.init.process powf MIDIEvent.empty atk dec sus rel = (ADSRState.init, 0)) ∧
    (∀ (s : ADSRState) (k v : Nat), s.note = 0 →
      ((s.process powf (MIDIEvent.createNoteOn k v 0) atk dec sus rel).1.state = ADSRPhase.attack ∨
       ((s.process powf (MIDIEvent.createNoteOn k v 0) atk dec sus rel).1.state = ADSRPhase.decay ∧
        (s.process powf (MIDIEvent.createNoteOn k v 0) atk dec sus rel).1.value = 1))) ∧
    (∀ s : ADSRState, s.state = ADSRPhase.attack → 0 < atk → s.value < 1 →
      (s.process powf MIDIEvent.empty atk dec sus rel).1.value > s.value ∧
      (s.process powf MIDIEvent.empty atk dec sus rel).1.value ≤ 1 ∧
      ((s.process powf MIDIEvent.empty atk dec sus rel).1.state = ADSRPhase.decay ↔
        (s.process powf MIDIEvent.empty atk dec sus rel).1.value = 1) ∧
      ((s.process powf MIDIEvent.empty atk dec sus rel).1.state = ADSRPhase.attack ↔
        (s.process powf MIDIEvent.empty atk dec sus rel).1.value < 1)) ∧
    (∀ (s : ADSRState) (k v : Nat), s.note ≠ 0 → s.state ≠ ADSRPhase.attack →
      (s.process powf (MIDIEvent.createNoteOn k v 0) atk dec sus rel).1.state ≠ ADSRPhase.attack) := by
  refine ⟨?_, rfl, ?_, ?_, ?_⟩
  · intro n
    induction n with
    | zero => rfl
    | succ n ih =>
      show ((ADSRState.stepsEmpty powf ADSRState.init atk dec sus rel n).process powf
        MIDIEvent.empty atk dec sus rel).1 = ADSRState.init
      rw [ih]
      rfl
  · intro s k v h
    rcases le_or_lt 1 (s.value + 1000 / atk * DT) with hge | hlt
    · right
      constructor <;> simp [ADSRState.process, h, hge]
    · left
      simp [ADSRState.process, h, hlt.not_le]
  · intro s hst hatk hv
    have hdt : (0 : ℚ) < DT := by norm_num [DT]
    have hinc : 0 < 1000 / atk * DT := by positivity
    obtain ⟨st, val, note⟩ := s
    dsimp at hst hv
    subst hst
    rcases le_or_lt 1 (val + 1000 / atk * DT) with hge | hlt
    · refine ⟨?_, ?_, ?_, ?_⟩ <;> simp [ADSRState.process, hge]
      · linarith
    · refine ⟨?_, ?_, ?_, ?_⟩ <;> simp [ADSRState.process, hlt.not_le]
      · linarith
      · linarith
      · exact hlt.ne
      · exact hlt
  · intro s k v hnote hst
    obtain ⟨st, val, note⟩ := s
    dsimp at hnote hst
    cases st with
    | attack => exact absurd rfl hst
    | decay => simp [ADSRState.process, hnote]
    | sustain => simp [ADSRState.process, hnote]
    | release =>
      simp only [ADSRState.process, hnote]
      split_ifs <;> simp

/-- Witness for C6 at `powf = const 0`, parameters `(1, 1, 0, 1)`, with a
note-on from rest, an Attack step at value `1/2`, and a legato note-on in
Decay. -/
theorem claim_C6_witness :
    ((ADSRState.init.process (fun _ _ => (0:ℚ)) (MIDIEvent.createNoteOn 60 100 0) 1 1 0 1).1.state = ADSRPhase.attack ∨
     ((ADSRState.init.process (fun _ _ => (0:ℚ)) (MIDIEvent.createNoteOn 60 100 0) 1 1 0 1).1.state = ADSRPhase.decay ∧
      (ADSRState.init.process (fun _ _ => (0:ℚ)) (MIDIEvent.createNoteOn 60 100 0) 1 1 0 1).1.value = 1)) ∧
    ((ADSRState.mk ADSRPhase.attack (1/2) 5).process (fun _ _ => (0:ℚ)) MIDIEvent.empty 1 1 0 1).1.value > (ADSRState.mk ADSRPhase.attack (1/2) 5).value ∧
    ((ADSRState.mk ADSRPhase.decay 1 5).process (fun _ _ => (0:ℚ)) (MIDIEvent.createNoteOn 60 100 0) 1 1 0 1).1.state ≠ ADSRPhase.attack := by
  have p := claim_C6_adsr_envelope (fun _ _ => (0:ℚ)) 1 1 0 1
  exact ⟨p.2.2.1 ADSRState.init 60 100 rfl,
         (p.2.2.2.1 ⟨ADSRPhase.attack, 1/2, 5⟩ rfl (by norm_num) (by norm_num)).1,
         p.2.2.2.2 ⟨ADSRPhase.decay, 1, 5⟩ 60 100 (by decide) (by decide)⟩

end Modo

